import Mathlib

/-!
# Application validation (pkg/application/api/validation/validation.go)

A shallow embedding of the validation functions of the Application resource:
the name rule, the kind/name pass over an item list, the existence pass
over an item list, and the create/update validators that combine them;
followed by the field extractor of backing-service instances
(pkg/backingserviceinstance/api/fields.go) and the store configuration of
backing services (pkg/backingservice/registry/backingservice/etcd/etcd.go).

Go strings are Lean strings, `len(s)` is `String.utf8ByteSize`, a `[]string`
of reasons is a `List String` (the nil slice is `[]`), and `fmt.Sprintf` with
`%s` / `%d` verbs is string concatenation.

Functions that the source calls but whose bodies live in other packages are
fields of `Collaborators`; every general theorem quantifies over them.
-/

set_option autoImplicit false

namespace Datafactory

/-! ## Data model -/

/-- An entry of `Application.Spec.Items`: a typed reference to another resource. -/
structure Item where
  Kind : String
  Name : String
  deriving DecidableEq, Repr

/-- The type `applicationapi.ItemList`. -/
abbrev ItemList := List Item

/-- The part of `kapi.ObjectMeta` that the validators read or pass on. -/
structure ObjectMeta where
  Name : String
  GenerateName : String
  Namespace : String
  ResourceVersion : String
  UID : String
  Labels : List (String × String)
  Annotations : List (String × String)
  deriving DecidableEq, Repr

/-- The type `applicationapi.ApplicationSpec`; only `Items` is read by validation. -/
structure ApplicationSpec where
  Items : ItemList
  deriving DecidableEq, Repr

/-- The type `applicationapi.Application`. -/
structure Application where
  ObjectMeta : ObjectMeta
  Spec : ApplicationSpec
  deriving DecidableEq, Repr

/-- The promoted field `application.Namespace`. -/
def Application.Namespace (application : Application) : String :=
  application.ObjectMeta.Namespace

/-! ## Field errors (k8s.io/kubernetes/pkg/util/validation/field) -/

/-- The error types of package `field` that occur here. -/
inductive ErrorType where
  | ErrorTypeNotFound
  | ErrorTypeRequired
  | ErrorTypeDuplicate
  | ErrorTypeInvalid
  | ErrorTypeNotSupported
  | ErrorTypeForbidden
  | ErrorTypeTooLong
  | ErrorTypeInternal
  deriving DecidableEq, Repr

/-- The `BadValue interface{}` of a field error: the item list, or some other value
rendered as text. -/
inductive BadValue where
  | items (value : ItemList)
  | other (value : String)
  deriving DecidableEq, Repr

/-- The record `field.Error` (its field `Type` is `ErrType` here). -/
structure FieldError where
  ErrType : ErrorType
  Field : String
  BadValue : BadValue
  Detail : String
  deriving DecidableEq, Repr

/-- The type `field.ErrorList`. -/
abbrev ErrorList := List FieldError

/-- The path `field.NewPath(name)`, rendered as its string. -/
def NewPath (name : String) : String := name

/-- The constructor `field.Invalid(path, value, detail)`. -/
def Invalid (fld : String) (value : BadValue) (detail : String) : FieldError :=
  { ErrType := ErrorType.ErrorTypeInvalid, Field := fld, BadValue := value, Detail := detail }

/-! ## Lookup clients -/

/-- Outcome of a `Get` on a resource client: `err == nil`, an error for which
`kerrors.IsNotFound` holds, or any other error. -/
inductive GetResult where
  | ok
  | notFound
  | otherError
  deriving DecidableEq, Repr

/-- A `Get` issued to a lookup client: the resource kind, the namespace the client was
scoped to (`none` for a cluster-scoped client) and the requested name. -/
structure Call where
  resource : String
  scope : Option String
  name : String
  deriving DecidableEq, Repr

/-- The getters of `oclient.Client` used by the existence pass. -/
structure OClient where
  ServiceBrokers : String → GetResult
  BackingServiceInstances : String → String → GetResult
  Builds : String → String → GetResult
  BuildConfigs : String → String → GetResult
  DeploymentConfigs : String → String → GetResult
  ImageStreams : String → String → GetResult

/-- The getters of `kclient.Client` used by the existence pass. -/
structure KClient where
  ReplicationControllers : String → String → GetResult
  Nodes : String → GetResult
  Pods : String → String → GetResult
  Services : String → String → GetResult

/-- Functions and tables of other packages that the validators call. -/
structure Collaborators where
  /-- The table `applicationapi.ApplicationItemSupportKinds`. -/
  ApplicationItemSupportKinds : List String
  /-- The check `oapi.MinimalNameRequirements(name, prefix)`. -/
  MinimalNameRequirements : String → Bool → List String
  /-- The check `validation.ValidateObjectMeta(meta, requiresNamespace, nameFn, fldPath)`. -/
  ValidateObjectMeta : ObjectMeta → Bool → (String → Bool → List String) → String → ErrorList
  /-- The check `validation.ValidateObjectMetaUpdate(newMeta, oldMeta, fldPath)`. -/
  ValidateObjectMetaUpdate : ObjectMeta → ObjectMeta → String → ErrorList

/-- Modelled from the spec: `applicationutil.Contains` is not among the sources; the
spec reads the test as "Kind drawn from a fixed allow-list", i.e. membership of the
string in the slice. -/
def Contains (list : List String) (s : String) : Bool :=
  list.contains s

/-! ## validation.go -/

/-- The constant `MinApplicationLength`. -/
def MinApplicationLength : Nat := 32

/-- The function `ValidateApplicationName(name, prefix)`. -/
def ValidateApplicationName (D : Collaborators) (name : String) (pfx : Bool) : List String :=
  let reasons := D.MinimalNameRequirements name pfx
  if reasons.length ≠ 0 then
    reasons
  else if name.utf8ByteSize < MinApplicationLength then
    ["must be at least " ++ toString MinApplicationLength ++ " characters long"]
  else
    []

/-- The function `ValidationApplicationItemKind(items)`: the kind/name pass. -/
def ValidationApplicationItemKind (D : Collaborators) : ItemList → List String
  | [] => []
  | item :: rest =>
    if !Contains D.ApplicationItemSupportKinds item.Kind then
      ["item unsupport selected kind " ++ item.Kind]
    else if item.Name.utf8ByteSize < 2 then
      ["item name must be at least 2 characters long"]
    else
      let reasons := D.MinimalNameRequirements item.Name false
      if reasons.length ≠ 0 then
        reasons
      else
        ValidationApplicationItemKind D rest

/-- The text `fmt.Sprintf("resource %s=%s no found.", item.Kind, item.Name)`. -/
def noFound (item : Item) : String :=
  "resource " ++ item.Kind ++ "=" ++ item.Name ++ " no found."

/-- The test `kerrors.IsNotFound(err)`. -/
def IsNotFound (err : GetResult) : Bool :=
  err = GetResult.notFound

/-- Records a `Get` that was issued before the rest of the loop ran. -/
def logged (c : Call) (r : (Bool × String) × List Call) : (Bool × String) × List Call :=
  (r.1, c :: r.2)

/-- The function `ValidationApplicationItemName(namespace, items, oClient, kClient)`: the
existence pass. The first component is the returned pair, the second the `Get` calls
issued to the clients, in order. -/
def ValidationApplicationItemName (ns : String) (oClient : OClient) (kClient : KClient) :
    ItemList → (Bool × String) × List Call
  | [] => ((true, ""), [])
  | item :: rest =>
    if item.Kind = "ServiceBroker" then
      let err := oClient.ServiceBrokers item.Name
      if err ≠ GetResult.ok ∧ IsNotFound err then
        ((false, noFound item), [Call.mk "ServiceBroker" none item.Name])
      else
        logged (Call.mk "ServiceBroker" none item.Name) (ValidationApplicationItemName ns oClient kClient rest)
    else if item.Kind = "BackingServiceInstance" then
      let err := oClient.BackingServiceInstances ns item.Name
      if err ≠ GetResult.ok ∧ IsNotFound err then
        ((false, noFound item), [Call.mk "BackingServiceInstance" (some ns) item.Name])
      else
        logged (Call.mk "BackingServiceInstance" (some ns) item.Name) (ValidationApplicationItemName ns oClient kClient rest)
    else if item.Kind = "Build" then
      let err := oClient.Builds ns item.Name
      if err ≠ GetResult.ok ∧ IsNotFound err then
        ((false, noFound item), [Call.mk "Build" (some ns) item.Name])
      else
        logged (Call.mk "Build" (some ns) item.Name) (ValidationApplicationItemName ns oClient kClient rest)
    else if item.Kind = "BuildConfig" then
      let err := oClient.BuildConfigs ns item.Name
      if err ≠ GetResult.ok ∧ IsNotFound err then
        ((false, noFound item), [Call.mk "BuildConfig" (some ns) item.Name])
      else
        logged (Call.mk "BuildConfig" (some ns) item.Name) (ValidationApplicationItemName ns oClient kClient rest)
    else if item.Kind = "DeploymentConfig" then
      let err := oClient.DeploymentConfigs ns item.Name
      if err ≠ GetResult.ok ∧ IsNotFound err then
        ((false, noFound item), [Call.mk "DeploymentConfig" (some ns) item.Name])
      else
        logged (Call.mk "DeploymentConfig" (some ns) item.Name) (ValidationApplicationItemName ns oClient kClient rest)
    else if item.Kind = "ImageStream" then
      let err := oClient.ImageStreams ns item.Name
      if err ≠ GetResult.ok ∧ IsNotFound err then
        ((false, noFound item), [Call.mk "ImageStream" (some ns) item.Name])
      else
        logged (Call.mk "ImageStream" (some ns) item.Name) (ValidationApplicationItemName ns oClient kClient rest)
    else if item.Kind = "ReplicationController" then
      let err := kClient.ReplicationControllers ns item.Name
      if err ≠ GetResult.ok ∧ IsNotFound err then
        ((false, noFound item), [Call.mk "ReplicationController" (some ns) item.Name])
      else
        logged (Call.mk "ReplicationController" (some ns) item.Name) (ValidationApplicationItemName ns oClient kClient rest)
    else if item.Kind = "Node" then
      let err := kClient.Nodes item.Name
      if err ≠ GetResult.ok ∧ IsNotFound err then
        ((false, noFound item), [Call.mk "Node" none item.Name])
      else
        logged (Call.mk "Node" none item.Name) (ValidationApplicationItemName ns oClient kClient rest)
    else if item.Kind = "Pod" then
      let err := kClient.Pods ns item.Name
      if err ≠ GetResult.ok ∧ IsNotFound err then
        ((false, noFound item), [Call.mk "Pod" (some ns) item.Name])
      else
        logged (Call.mk "Pod" (some ns) item.Name) (ValidationApplicationItemName ns oClient kClient rest)
    else if item.Kind = "Service" then
      let err := kClient.Services ns item.Name
      if err ≠ GetResult.ok ∧ IsNotFound err then
        ((false, noFound item), [Call.mk "Service" (some ns) item.Name])
      else
        logged (Call.mk "Service" (some ns) item.Name) (ValidationApplicationItemName ns oClient kClient rest)
    else
      ValidationApplicationItemName ns oClient kClient rest

/-- The function `ValidateApplication(application, oClient, kClient)`: the returned error
list, with the `Get` calls issued to the clients. -/
def ValidateApplication (D : Collaborators) (application : Application)
    (oClient : OClient) (kClient : KClient) : ErrorList × List Call :=
  let result := D.ValidateObjectMeta application.ObjectMeta true D.MinimalNameRequirements
    (NewPath "metadata")
  let reasons := ValidationApplicationItemKind D application.Spec.Items
  let result :=
    if reasons.length ≠ 0 then
      result ++ [Invalid (NewPath "items") (BadValue.items application.Spec.Items)
        (String.intercalate ", " reasons)]
    else result
  let r := ValidationApplicationItemName application.Namespace oClient kClient
    application.Spec.Items
  let result :=
    if !r.1.1 then
      result ++ [Invalid (NewPath "items") (BadValue.items application.Spec.Items) r.1.2]
    else result
  (result, r.2)

/-- The function `ValidateApplicationProxy(application)`. -/
def ValidateApplicationProxy (D : Collaborators) (application : Application) : ErrorList :=
  D.ValidateObjectMeta application.ObjectMeta true D.MinimalNameRequirements (NewPath "metadata")

/-- The function `ValidateApplicationUpdate(newApplication, oldApplication)`: the returned
error list, with the `Get` calls issued to lookup clients (the function receives no
client, so there are none). -/
def ValidateApplicationUpdate (D : Collaborators) (newApplication oldApplication : Application) :
    ErrorList × List Call :=
  let allErrs := D.ValidateObjectMetaUpdate newApplication.ObjectMeta oldApplication.ObjectMeta
    (NewPath "metadata")
  let allErrs := allErrs ++ ValidateApplicationProxy D newApplication
  (allErrs, [])

/-! ## Vocabulary of the statements -/

/-- The `Get` that the switch of the existence pass selects for an item, with its
outcome; `none` when no case of the switch matches the item kind. -/
def lookupFor (ns : String) (oClient : OClient) (kClient : KClient) (item : Item) :
    Option (Call × GetResult) :=
  if item.Kind = "ServiceBroker" then
    some (Call.mk "ServiceBroker" none item.Name, oClient.ServiceBrokers item.Name)
  else if item.Kind = "BackingServiceInstance" then
    some (Call.mk "BackingServiceInstance" (some ns) item.Name, oClient.BackingServiceInstances ns item.Name)
  else if item.Kind = "Build" then
    some (Call.mk "Build" (some ns) item.Name, oClient.Builds ns item.Name)
  else if item.Kind = "BuildConfig" then
    some (Call.mk "BuildConfig" (some ns) item.Name, oClient.BuildConfigs ns item.Name)
  else if item.Kind = "DeploymentConfig" then
    some (Call.mk "DeploymentConfig" (some ns) item.Name, oClient.DeploymentConfigs ns item.Name)
  else if item.Kind = "ImageStream" then
    some (Call.mk "ImageStream" (some ns) item.Name, oClient.ImageStreams ns item.Name)
  else if item.Kind = "ReplicationController" then
    some (Call.mk "ReplicationController" (some ns) item.Name, kClient.ReplicationControllers ns item.Name)
  else if item.Kind = "Node" then
    some (Call.mk "Node" none item.Name, kClient.Nodes item.Name)
  else if item.Kind = "Pod" then
    some (Call.mk "Pod" (some ns) item.Name, kClient.Pods ns item.Name)
  else if item.Kind = "Service" then
    some (Call.mk "Service" (some ns) item.Name, kClient.Services ns item.Name)
  else
    none

/-- The lookup selected for the item returns a not-found error. -/
def lookupNotFound (ns : String) (oClient : OClient) (kClient : KClient) (item : Item) : Prop :=
  (lookupFor ns oClient kClient item).map Prod.snd = some GetResult.notFound

instance (ns : String) (oClient : OClient) (kClient : KClient) (item : Item) :
    Decidable (lookupNotFound ns oClient kClient item) := by
  unfold lookupNotFound; exact inferInstance

/-- The `Get` calls that the switch selects for the items of a list, in order. -/
def callsFor (ns : String) (oClient : OClient) (kClient : KClient) (items : ItemList) :
    List Call :=
  items.filterMap (fun item => (lookupFor ns oClient kClient item).map Prod.fst)

/-- The ten kinds handled by the switch of the existence pass. -/
def handledKinds : List String :=
  ["ServiceBroker", "BackingServiceInstance", "Build", "BuildConfig", "DeploymentConfig",
   "ImageStream", "ReplicationController", "Node", "Pod", "Service"]

/-- An item passes the three checks of the kind/name pass. -/
def itemValid (D : Collaborators) (item : Item) : Prop :=
  Contains D.ApplicationItemSupportKinds item.Kind = true ∧
  2 ≤ item.Name.utf8ByteSize ∧
  D.MinimalNameRequirements item.Name false = []

instance (D : Collaborators) (item : Item) : Decidable (itemValid D item) := by
  unfold itemValid; exact inferInstance

/-! ## Collaborators for concrete evaluation -/

/-- Modelled from the spec: the table `applicationapi.ApplicationItemSupportKinds` is not
among the sources; the spec lists the supported Item Kinds as ServiceBroker,
BackingServiceInstance, Build, BuildConfig, DeploymentConfig, ImageStream,
ReplicationController, Node, Pod, Service. -/
def specSupportKinds : List String :=
  ["ServiceBroker", "BackingServiceInstance", "Build", "BuildConfig", "DeploymentConfig",
   "ImageStream", "ReplicationController", "Node", "Pod", "Service"]

/-- Modelled from the spec: `oapi.MinimalNameRequirements` is not among the sources; the
spec gives the name legality rule as "lowercase alphanumerics and `-`, no
leading/trailing `-`". One reason is reported when the rule fails. -/
def specMinimalNameRequirements (name : String) (_pfx : Bool) : List String :=
  let cs := name.toList
  if cs.all (fun c => c.isLower || c.isDigit || c == '-')
      && cs.head? != some '-' && cs.getLast? != some '-' then
    []
  else
    ["must be lowercase alphanumerics and -, with no leading or trailing -"]

/-- Modelled from the spec: `validation.ValidateObjectMeta` is not among the sources; the
spec describes it as "base object-metadata validation (name/namespace/label legality)".
The name is checked with the given name function, the namespace (when required) with
the legality rule. -/
def specValidateObjectMeta (objMeta : ObjectMeta) (requiresNamespace : Bool)
    (nameFn : String → Bool → List String) (fldPath : String) : ErrorList :=
  let reasons := nameFn objMeta.Name false
  (if reasons.length ≠ 0 then
    [Invalid (fldPath ++ ".name") (BadValue.other objMeta.Name) (String.intercalate ", " reasons)]
   else []) ++
  (if requiresNamespace && (specMinimalNameRequirements objMeta.Namespace false).length != 0 then
    [Invalid (fldPath ++ ".namespace") (BadValue.other objMeta.Namespace) "must be a legal name"]
   else [])

/-- Modelled from the spec: `validation.ValidateObjectMetaUpdate` is not among the
sources; the spec describes it as detecting "illegal mutation of immutable fields
(e.g. namespace)". -/
def specValidateObjectMetaUpdate (newMeta oldMeta : ObjectMeta) (fldPath : String) : ErrorList :=
  if newMeta.Namespace ≠ oldMeta.Namespace then
    [Invalid (fldPath ++ ".namespace") (BadValue.other newMeta.Namespace) "field is immutable"]
  else []

/-- The collaborators as the spec describes them. -/
def specCollaborators : Collaborators :=
  ⟨specSupportKinds, specMinimalNameRequirements, specValidateObjectMeta,
   specValidateObjectMetaUpdate⟩

/-- An origin client on which every `Get` answers the same. -/
def constOClient (r : GetResult) : OClient :=
  ⟨fun _ => r, fun _ _ => r, fun _ _ => r, fun _ _ => r, fun _ _ => r, fun _ _ => r⟩

/-- A kube client on which every `Get` answers the same. -/
def constKClient (r : GetResult) : KClient :=
  ⟨fun _ _ => r, fun _ => r, fun _ _ => r, fun _ _ => r⟩

/-- A kube client on which pods are missing, nodes fail with another error and the other
`Get`s succeed. -/
def podsMissingKClient : KClient :=
  ⟨fun _ _ => GetResult.ok, fun _ => GetResult.otherError, fun _ _ => GetResult.notFound,
   fun _ _ => GetResult.ok⟩

/-- A legal name of 31 bytes. -/
def name31 : String := "aaaaaaaaaaaaaaaaaaaaaaaaaaaaaaa"

/-- A legal name of 32 bytes. -/
def name32 : String := "aaaaaaaaaaaaaaaaaaaaaaaaaaaaaaaa"

/-- Object metadata with the given name and namespace and nothing else set. -/
def metaOf (name ns : String) : ObjectMeta :=
  ⟨name, "", ns, "", "", [], []⟩

/-- The kinds that the switch of the existence pass looks up on a namespaced client. -/
def namespacedKinds : List String :=
  ["BackingServiceInstance", "Build", "BuildConfig", "DeploymentConfig", "ImageStream",
   "ReplicationController", "Pod", "Service"]

/-- The kinds that the switch of the existence pass looks up on a cluster-scoped client. -/
def clusterKinds : List String :=
  ["ServiceBroker", "Node"]

/-- Collaborators whose base check accepts every name, for evaluating the length rules
on their own. -/
def lenientCollaborators : Collaborators :=
  ⟨specSupportKinds, fun _ _ => [], specValidateObjectMeta, specValidateObjectMetaUpdate⟩

/-- An origin client that only knows objects of namespace `prod`. -/
def prodOnlyOClient : OClient :=
  ⟨fun _ => GetResult.ok,
   fun ns _ => if ns = "prod" then GetResult.ok else GetResult.notFound,
   fun ns _ => if ns = "prod" then GetResult.ok else GetResult.notFound,
   fun ns _ => if ns = "prod" then GetResult.ok else GetResult.notFound,
   fun ns _ => if ns = "prod" then GetResult.ok else GetResult.notFound,
   fun ns _ => if ns = "prod" then GetResult.ok else GetResult.notFound⟩

/-! ## Selectable fields (pkg/backingserviceinstance/api/fields.go) -/

/-- The part of `BackingServiceInstanceSpec` read by the field extractor: the promoted
field `Spec.BackingServiceName`. -/
structure BackingServiceInstanceSpec where
  BackingServiceName : String
  deriving DecidableEq, Repr

/-- The type `api.BackingServiceInstance`. -/
structure BackingServiceInstance where
  ObjectMeta : ObjectMeta
  Spec : BackingServiceInstanceSpec
  deriving DecidableEq, Repr

/-- The promoted field `backingServiceInstance.Name`. -/
def BackingServiceInstance.Name (backingServiceInstance : BackingServiceInstance) : String :=
  backingServiceInstance.ObjectMeta.Name

/-- The promoted field `backingServiceInstance.Namespace`. -/
def BackingServiceInstance.Namespace (backingServiceInstance : BackingServiceInstance) :
    String :=
  backingServiceInstance.ObjectMeta.Namespace

/-- The type `fields.Set`, a `map[string]string`, as the entries of the map. -/
abbrev fields.Set := List (String × String)

/-- The function `BackingServiceInstanceToSelectableFields(backingServiceInstance)`. -/
def BackingServiceInstanceToSelectableFields (backingServiceInstance : BackingServiceInstance) :
    fields.Set :=
  [("metadata.name", backingServiceInstance.Name),
   ("metadata.namespace", backingServiceInstance.Namespace),
   ("spec.provisioning.backingservice_name", backingServiceInstance.Spec.BackingServiceName)]

/-! ## The backing-service store (pkg/backingservice/registry/backingservice/etcd/etcd.go) -/

/-- The part of `kapi.Context` read by the key functions: the request namespace. -/
structure Context where
  Namespace : String
  deriving DecidableEq, Repr

/-- The type `api.BackingService`; the store reads its metadata. -/
structure BackingService where
  ObjectMeta : ObjectMeta
  deriving DecidableEq, Repr

/-- The promoted field `Name` of a backing service. -/
def BackingService.Name (obj : BackingService) : String :=
  obj.ObjectMeta.Name

/-- Errors of the key functions and of the store operations. -/
inductive StoreError where
  | InvalidName
  | NotFound
  | AlreadyExists
  | Conflict
  deriving DecidableEq, Repr

/-- Result of a store operation: a value or an error. -/
inductive Result (α : Type) where
  | ok (value : α)
  | error (err : StoreError)
  deriving DecidableEq, Repr

/-- Modelled from the spec: `registry.NamespaceKeyRootFunc` is not among the sources; the
spec says "Namespaced resources compute root keys as `prefix + "/" + namespace`". -/
def NamespaceKeyRootFunc (ctx : Context) (pfx : String) : String :=
  pfx ++ "/" ++ ctx.Namespace

/-- Modelled from the spec: `registry.NamespaceKeyFunc` is not among the sources; the spec
says "item keys append `"/" + name`" to the root key and "Fails with `InvalidName` when
name fails legality checks", the legality rule being the one of the spec. -/
def NamespaceKeyFunc (ctx : Context) (pfx : String) (name : String) : Result String :=
  if (specMinimalNameRequirements name false).length ≠ 0 then
    Result.error StoreError.InvalidName
  else
    Result.ok (NamespaceKeyRootFunc ctx pfx ++ "/" ++ name)

/-- The fields of `registry.Store` that `NewREST` sets, without the matcher and the
strategy objects, whose types belong to packages that are not among the sources. -/
structure Store where
  NewFunc : Unit → BackingService
  NewListFunc : Unit → List BackingService
  KeyRootFunc : Context → String
  KeyFunc : Context → String → Result String
  ObjectNameFunc : BackingService → Result String
  QualifiedResource : String
  ReturnDeletedObject : Bool

/-- The type `REST`. -/
structure REST where
  store : Store

/-- The store literal that `NewREST` builds for a key prefix. -/
def NewREST_store (pfx : String) : Store :=
  { NewFunc := fun _ => ⟨metaOf "" ""⟩,
    NewListFunc := fun _ => [],
    KeyRootFunc := fun ctx => NamespaceKeyRootFunc ctx pfx,
    KeyFunc := fun ctx name => NamespaceKeyFunc ctx pfx name,
    ObjectNameFunc := fun obj => Result.ok obj.Name,
    QualifiedResource := "backingservice",
    ReturnDeletedObject := false }

/-- The function `NewREST(optsGetter)`. The call `restoptions.ApplyOptions(optsGetter,
store, prefix)` attaches the storage backend, which is not a field of `Store` here; it is
a parameter that says whether the call fails, and with which error. -/
def NewREST (ApplyOptions : Store → String → Option String) : Except String REST :=
  let pfx := "/backingservices"
  let store := NewREST_store pfx
  match ApplyOptions store pfx with
  | some err => Except.error err
  | none => Except.ok ⟨store⟩

/-- Reads a key of the backing-service store back: strips `/backingservices/` and splits
the rest at its last `/` into namespace and name. -/
def parseKey (key : String) : Option (String × String) :=
  let p := "/backingservices/".toList
  let cs := key.toList
  if p.isPrefixOf cs then
    let rest := (cs.drop p.length).reverse
    match rest.dropWhile (fun c => c != '/') with
    | [] => none
    | _ :: nsRev => some (String.mk nsRev.reverse, String.mk (rest.takeWhile (fun c => c != '/')).reverse)
  else
    none

/-- An options getter whose application succeeds. -/
def okOptions : Store → String → Option String :=
  fun _ _ => none

/-- The outcome of the existence pass on a one-item list whose lookup is the call `c`
with result `r`. -/
def singleOutcome (item : Item) (c : Call) (r : GetResult) : (Bool × String) × List Call :=
  (if r = GetResult.notFound then (false, noFound item) else (true, ""), [c])

/-! ## Auxiliary lemmas -/

theorem length_ne_zero_iff {α : Type} (l : List α) : l.length ≠ 0 ↔ l ≠ [] := by
  cases l <;> simp

theorem ValidationApplicationItemKind_cons (D : Collaborators) (item : Item) (rest : ItemList) :
    ValidationApplicationItemKind D (item :: rest) =
      if Contains D.ApplicationItemSupportKinds item.Kind = false then
        ["item unsupport selected kind " ++ item.Kind]
      else if item.Name.utf8ByteSize < 2 then
        ["item name must be at least 2 characters long"]
      else if D.MinimalNameRequirements item.Name false ≠ [] then
        D.MinimalNameRequirements item.Name false
      else
        ValidationApplicationItemKind D rest := by
  simp only [ValidationApplicationItemKind, length_ne_zero_iff]
  split_ifs <;> simp_all

theorem ValidationApplicationItemKind_cons_valid (D : Collaborators) (item : Item)
    (rest : ItemList) (h : itemValid D item) :
    ValidationApplicationItemKind D (item :: rest) = ValidationApplicationItemKind D rest := by
  obtain ⟨hk, hl, hm⟩ := h
  rw [ValidationApplicationItemKind_cons]
  simp [hk, hm, Nat.not_lt.mpr hl]

theorem ValidationApplicationItemKind_append_valid (D : Collaborators) (xs zs : ItemList)
    (h : ∀ a ∈ xs, itemValid D a) :
    ValidationApplicationItemKind D (xs ++ zs) = ValidationApplicationItemKind D zs := by
  induction xs with
  | nil => rfl
  | cons a xs ih =>
    rw [List.cons_append, ValidationApplicationItemKind_cons_valid D a _ (h a (by simp))]
    exact ih (fun b hb => h b (by simp [hb]))

theorem ValidationApplicationItemKind_cons_invalid (D : Collaborators) (b : Item)
    (ys : ItemList) (h : ¬ itemValid D b) :
    ValidationApplicationItemKind D (b :: ys) =
      (if Contains D.ApplicationItemSupportKinds b.Kind = false then
        ["item unsupport selected kind " ++ b.Kind]
      else if b.Name.utf8ByteSize < 2 then
        ["item name must be at least 2 characters long"]
      else
        D.MinimalNameRequirements b.Name false) ∧
    ValidationApplicationItemKind D (b :: ys) ≠ [] := by
  rw [ValidationApplicationItemKind_cons]
  unfold itemValid at h
  split_ifs with h1 h2 h3
  · simp
  · simp
  · simp [h3]
  · exact absurd ⟨by simpa using h1, Nat.not_lt.mp h2, by simpa using h3⟩ h

theorem notFound_guard {α : Type} (err : GetResult) (a b : α) :
    (if err ≠ GetResult.ok ∧ IsNotFound err = true then a else b) =
      if err = GetResult.notFound then a else b := by
  cases err <;> simp [IsNotFound]

theorem ValidationApplicationItemName_cons (ns : String) (oClient : OClient) (kClient : KClient)
    (item : Item) (rest : ItemList) :
    ValidationApplicationItemName ns oClient kClient (item :: rest) =
      match lookupFor ns oClient kClient item with
      | none => ValidationApplicationItemName ns oClient kClient rest
      | some (c, r) =>
        if r = GetResult.notFound then ((false, noFound item), [c])
        else logged c (ValidationApplicationItemName ns oClient kClient rest) := by
  rw [ValidationApplicationItemName]
  unfold lookupFor
  by_cases h1 : item.Kind = "ServiceBroker"
  · rw [if_pos h1, if_pos h1, notFound_guard]
  rw [if_neg h1, if_neg h1]
  by_cases h2 : item.Kind = "BackingServiceInstance"
  · rw [if_pos h2, if_pos h2, notFound_guard]
  rw [if_neg h2, if_neg h2]
  by_cases h3 : item.Kind = "Build"
  · rw [if_pos h3, if_pos h3, notFound_guard]
  rw [if_neg h3, if_neg h3]
  by_cases h4 : item.Kind = "BuildConfig"
  · rw [if_pos h4, if_pos h4, notFound_guard]
  rw [if_neg h4, if_neg h4]
  by_cases h5 : item.Kind = "DeploymentConfig"
  · rw [if_pos h5, if_pos h5, notFound_guard]
  rw [if_neg h5, if_neg h5]
  by_cases h6 : item.Kind = "ImageStream"
  · rw [if_pos h6, if_pos h6, notFound_guard]
  rw [if_neg h6, if_neg h6]
  by_cases h7 : item.Kind = "ReplicationController"
  · rw [if_pos h7, if_pos h7, notFound_guard]
  rw [if_neg h7, if_neg h7]
  by_cases h8 : item.Kind = "Node"
  · rw [if_pos h8, if_pos h8, notFound_guard]
  rw [if_neg h8, if_neg h8]
  by_cases h9 : item.Kind = "Pod"
  · rw [if_pos h9, if_pos h9, notFound_guard]
  rw [if_neg h9, if_neg h9]
  by_cases h10 : item.Kind = "Service"
  · rw [if_pos h10, if_pos h10, notFound_guard]
  rw [if_neg h10, if_neg h10]

theorem callsFor_cons (ns : String) (oClient : OClient) (kClient : KClient)
    (item : Item) (rest : ItemList) :
    callsFor ns oClient kClient (item :: rest) =
      (match lookupFor ns oClient kClient item with
       | none => []
       | some (c, _) => [c]) ++ callsFor ns oClient kClient rest := by
  unfold callsFor
  rcases h : lookupFor ns oClient kClient item with _ | ⟨c, r⟩ <;>
    simp [List.filterMap_cons, h]

theorem callsFor_append (ns : String) (oClient : OClient) (kClient : KClient)
    (xs ys : ItemList) :
    callsFor ns oClient kClient (xs ++ ys) =
      callsFor ns oClient kClient xs ++ callsFor ns oClient kClient ys := by
  unfold callsFor
  exact List.filterMap_append _ _ _

theorem ValidationApplicationItemName_cons_notFound (ns : String) (oClient : OClient)
    (kClient : KClient) (b : Item) (ys : ItemList) (h : lookupNotFound ns oClient kClient b) :
    ValidationApplicationItemName ns oClient kClient (b :: ys) =
      ((false, noFound b), callsFor ns oClient kClient [b]) := by
  rw [ValidationApplicationItemName_cons, callsFor_cons]
  unfold lookupNotFound at h
  rcases hl : lookupFor ns oClient kClient b with _ | ⟨c, r⟩
  · simp [hl] at h
  · have hr : r = GetResult.notFound := by simpa [hl] using h
    simp [hr, callsFor]

theorem ValidationApplicationItemName_cons_pass (ns : String) (oClient : OClient)
    (kClient : KClient) (a : Item) (rest : ItemList)
    (h : ¬ lookupNotFound ns oClient kClient a) :
    ValidationApplicationItemName ns oClient kClient (a :: rest) =
      ((ValidationApplicationItemName ns oClient kClient rest).1,
        callsFor ns oClient kClient [a] ++
          (ValidationApplicationItemName ns oClient kClient rest).2) := by
  rw [ValidationApplicationItemName_cons, callsFor_cons]
  unfold lookupNotFound at h
  rcases hl : lookupFor ns oClient kClient a with _ | ⟨c, r⟩
  · simp [callsFor]
  · have hr : r ≠ GetResult.notFound := by simpa [hl] using h
    simp [hr, callsFor, logged]

theorem ValidationApplicationItemName_append_pass (ns : String) (oClient : OClient)
    (kClient : KClient) (xs zs : ItemList)
    (h : ∀ a ∈ xs, ¬ lookupNotFound ns oClient kClient a) :
    ValidationApplicationItemName ns oClient kClient (xs ++ zs) =
      ((ValidationApplicationItemName ns oClient kClient zs).1,
        callsFor ns oClient kClient xs ++
          (ValidationApplicationItemName ns oClient kClient zs).2) := by
  induction xs with
  | nil => simp [callsFor]
  | cons a xs ih =>
    rw [List.cons_append, ValidationApplicationItemName_cons_pass ns oClient kClient a _
      (h a (by simp)), ih (fun b hb => h b (by simp [hb]))]
    rw [show a :: xs = [a] ++ xs from rfl, callsFor_append]
    simp

theorem ValidationApplicationItemName_all_pass (ns : String) (oClient : OClient)
    (kClient : KClient) (items : ItemList)
    (h : ∀ a ∈ items, ¬ lookupNotFound ns oClient kClient a) :
    ValidationApplicationItemName ns oClient kClient items =
      ((true, ""), callsFor ns oClient kClient items) := by
  have := ValidationApplicationItemName_append_pass ns oClient kClient items [] h
  simpa [ValidationApplicationItemName] using this

theorem ValidationApplicationItemName_false_iff (ns : String) (oClient : OClient)
    (kClient : KClient) (items : ItemList) :
    (ValidationApplicationItemName ns oClient kClient items).1.1 = false ↔
      ∃ a ∈ items, lookupNotFound ns oClient kClient a := by
  induction items with
  | nil => simp [ValidationApplicationItemName]
  | cons a rest ih =>
    by_cases ha : lookupNotFound ns oClient kClient a
    · rw [ValidationApplicationItemName_cons_notFound ns oClient kClient a rest ha]
      simp only [true_iff]
      exact ⟨a, by simp, ha⟩
    · rw [ValidationApplicationItemName_cons_pass ns oClient kClient a rest ha]
      simp only [ih, List.mem_cons, exists_eq_or_imp, ha, false_or]

theorem ValidateApplication_no_items (D : Collaborators) (application : Application)
    (oClient : OClient) (kClient : KClient) (h : application.Spec.Items = []) :
    ValidateApplication D application oClient kClient =
      (D.ValidateObjectMeta application.ObjectMeta true D.MinimalNameRequirements
        (NewPath "metadata"), []) := by
  simp [ValidateApplication, h, ValidationApplicationItemKind, ValidationApplicationItemName]

/-! ## The kind/name pass and the name rule -/

/-- C1 (as stated, refuted): in the list `[Pod/x, Bogus/ab]` the first Item whose Kind is
outside the allow-list is `Bogus/ab`, yet the kind/name pass returns the name-length
reason of the earlier Item; and on `[Bogus/ab]` the reason it returns reads
"item unsupport selected kind Bogus", not "item unsupported selected kind Bogus". -/
theorem itemKind_unsupported_not_as_stated :
    List.find? (fun i : Item => !Contains specCollaborators.ApplicationItemSupportKinds i.Kind)
        [⟨"Pod", "x"⟩, ⟨"Bogus", "ab"⟩] = some ⟨"Bogus", "ab"⟩ ∧
    ValidationApplicationItemKind specCollaborators [⟨"Pod", "x"⟩, ⟨"Bogus", "ab"⟩] =
        ["item name must be at least 2 characters long"] ∧
    ValidationApplicationItemKind specCollaborators [⟨"Pod", "x"⟩, ⟨"Bogus", "ab"⟩] ≠
        ["item unsupported selected kind Bogus"] ∧
    ValidationApplicationItemKind specCollaborators [⟨"Bogus", "ab"⟩] =
        ["item unsupport selected kind Bogus"] ∧
    ValidationApplicationItemKind specCollaborators [⟨"Bogus", "ab"⟩] ≠
        ["item unsupported selected kind Bogus"] := by
  decide

/-- C1 (amended): if every Item before `b` passes all three checks of the kind/name pass
and the Kind of `b` is not in the allow-list, the pass returns exactly the one-element
list `["item unsupport selected kind <b.Kind>"]`, whatever follows `b`. -/
theorem itemKind_unsupported_first_invalid (D : Collaborators) (xs ys : ItemList) (b : Item)
    (hxs : ∀ a ∈ xs, itemValid D a)
    (hb : Contains D.ApplicationItemSupportKinds b.Kind = false) :
    ValidationApplicationItemKind D (xs ++ [b] ++ ys) =
      ["item unsupport selected kind " ++ b.Kind] := by
  rw [List.append_assoc, ValidationApplicationItemKind_append_valid D xs _ hxs,
    List.singleton_append, ValidationApplicationItemKind_cons, if_pos hb]

/-- C1 (amended, at a concrete input): after the valid Item `Pod/ab`, the Item `Bogus/cd` of
unsupported Kind decides the result, although a short-named Item follows. -/
theorem itemKind_unsupported_first_invalid_witness :
    (∀ a ∈ [(⟨"Pod", "ab"⟩ : Item)], itemValid specCollaborators a) ∧
    Contains specCollaborators.ApplicationItemSupportKinds "Bogus" = false ∧
    ValidationApplicationItemKind specCollaborators
        ([⟨"Pod", "ab"⟩] ++ [⟨"Bogus", "cd"⟩] ++ [⟨"Pod", "x"⟩]) =
      ["item unsupport selected kind " ++ "Bogus"] :=
  ⟨by decide, by decide,
    itemKind_unsupported_first_invalid specCollaborators [⟨"Pod", "ab"⟩] [⟨"Pod", "x"⟩]
      ⟨"Bogus", "cd"⟩ (by decide) (by decide)⟩

/-- C4: `ValidateApplicationName(name, prefix)` returns the reasons of the base check when
there are any, whatever the length; otherwise exactly
`["must be at least 32 characters long"]` when the name has fewer than 32 bytes;
otherwise no reasons. So a legal name of length 31 fails and one of length 32 passes. -/
theorem ValidateApplicationName_characterised (D : Collaborators) (name : String) (pfx : Bool) :
    (D.MinimalNameRequirements name pfx ≠ [] →
      ValidateApplicationName D name pfx = D.MinimalNameRequirements name pfx) ∧
    (D.MinimalNameRequirements name pfx = [] → name.utf8ByteSize < 32 →
      ValidateApplicationName D name pfx = ["must be at least 32 characters long"]) ∧
    (D.MinimalNameRequirements name pfx = [] → 32 ≤ name.utf8ByteSize →
      ValidateApplicationName D name pfx = []) ∧
    (D.MinimalNameRequirements name pfx = [] → name.utf8ByteSize = 31 →
      ValidateApplicationName D name pfx ≠ []) ∧
    (D.MinimalNameRequirements name pfx = [] → name.utf8ByteSize = 32 →
      ValidateApplicationName D name pfx = []) := by
  have hmsg : "must be at least " ++ toString MinApplicationLength ++ " characters long" =
      "must be at least 32 characters long" := by decide
  refine ⟨?_, ?_, ?_, ?_, ?_⟩
  · intro h
    simp [ValidateApplicationName, length_ne_zero_iff, h]
  · intro h hlt
    simp [ValidateApplicationName, h, MinApplicationLength, hlt]
    exact hmsg
  · intro h hge
    simp [ValidateApplicationName, h, MinApplicationLength, Nat.not_lt.mpr hge]
  · intro h h31
    simp [ValidateApplicationName, h, MinApplicationLength, h31]
  · intro h h32
    simp [ValidateApplicationName, h, MinApplicationLength, h32]

/-- C3 (the code at the failing input): for the Application named by 31 letters `a` in
namespace `ns` with no Items, the base check accepts the name and
`ValidateApplicationName` reports "must be at least 32 characters long", but
`ValidateApplication` hands the base check, not `ValidateApplicationName`, to the metadata
validation and returns an empty error list. With no Items the returned list is, for
every set of collaborators, what the metadata validation gives for the base check. -/
theorem ValidateApplication_skips_name_rule :
    name31.utf8ByteSize = 31 ∧
    specCollaborators.MinimalNameRequirements name31 false = [] ∧
    ValidateApplicationName specCollaborators name31 false =
      ["must be at least 32 characters long"] ∧
    ValidateApplication specCollaborators ⟨metaOf name31 "ns", ⟨[]⟩⟩
      (constOClient GetResult.ok) (constKClient GetResult.ok) = ([], []) ∧
    (∀ (D : Collaborators) (objMeta : ObjectMeta) (oClient : OClient) (kClient : KClient),
      (ValidateApplication D ⟨objMeta, ⟨[]⟩⟩ oClient kClient).1 =
        D.ValidateObjectMeta objMeta true D.MinimalNameRequirements "metadata") := by
  refine ⟨by decide, by decide, by decide, by decide, ?_⟩
  intro D objMeta oClient kClient
  rw [ValidateApplication_no_items D ⟨objMeta, ⟨[]⟩⟩ oClient kClient rfl]
  rfl

/-- C5 (as stated, refuted): the list `[Bogus/x]` contains an Item whose Name has length
1, yet the kind/name pass returns the unsupported-kind reason, not the name-length
reason. -/
theorem itemKind_short_name_not_as_stated :
    (∃ a ∈ [(⟨"Bogus", "x"⟩ : Item)], a.Name.utf8ByteSize < 2) ∧
    ValidationApplicationItemKind specCollaborators [⟨"Bogus", "x"⟩] =
        ["item unsupport selected kind Bogus"] ∧
    ValidationApplicationItemKind specCollaborators [⟨"Bogus", "x"⟩] ≠
        ["item name must be at least 2 characters long"] := by
  decide

/-- C5 (amended): if every Item before `b` passes all three checks of the kind/name pass,
the Kind of `b` is in the allow-list and the Name of `b` has length less than 2, the pass
returns exactly `["item name must be at least 2 characters long"]`, whatever follows. -/
theorem itemKind_short_name_first_invalid (D : Collaborators) (xs ys : ItemList) (b : Item)
    (hxs : ∀ a ∈ xs, itemValid D a)
    (hk : Contains D.ApplicationItemSupportKinds b.Kind = true)
    (hb : b.Name.utf8ByteSize < 2) :
    ValidationApplicationItemKind D (xs ++ [b] ++ ys) =
      ["item name must be at least 2 characters long"] := by
  rw [List.append_assoc, ValidationApplicationItemKind_append_valid D xs _ hxs,
    List.singleton_append, ValidationApplicationItemKind_cons]
  simp [hk, hb]

/-- C5 (amended, at a concrete input): after the valid Item `Pod/ab`, the Item `Node/x` with a
one-byte Name decides the result, although an Item of unsupported Kind follows. -/
theorem itemKind_short_name_first_invalid_witness :
    (∀ a ∈ [(⟨"Pod", "ab"⟩ : Item)], itemValid specCollaborators a) ∧
    Contains specCollaborators.ApplicationItemSupportKinds "Node" = true ∧
    ("x" : String).utf8ByteSize < 2 ∧
    ValidationApplicationItemKind specCollaborators
        ([⟨"Pod", "ab"⟩] ++ [⟨"Node", "x"⟩] ++ [⟨"Bogus", "cd"⟩]) =
      ["item name must be at least 2 characters long"] :=
  ⟨by decide, by decide, by decide,
    itemKind_short_name_first_invalid specCollaborators [⟨"Pod", "ab"⟩] [⟨"Bogus", "cd"⟩]
      ⟨"Node", "x"⟩ (by decide) (by decide) (by decide)⟩

/-- C6: the kind/name pass short-circuits. If every Item of `xs` is valid and `b` is
invalid, the pass on `xs ++ [b] ++ ys` returns what it returns on `[b]`: a non-empty
reason list that is the first failing check of `b` (kind, then length, then legality)
and does not depend on `ys`. -/
theorem itemKind_short_circuit (D : Collaborators) (xs ys : ItemList) (b : Item)
    (hxs : ∀ a ∈ xs, itemValid D a) (hb : ¬ itemValid D b) :
    ValidationApplicationItemKind D (xs ++ [b] ++ ys) = ValidationApplicationItemKind D [b] ∧
    ValidationApplicationItemKind D [b] ≠ [] ∧
    ValidationApplicationItemKind D [b] =
      (if Contains D.ApplicationItemSupportKinds b.Kind = false then
        ["item unsupport selected kind " ++ b.Kind]
      else if b.Name.utf8ByteSize < 2 then
        ["item name must be at least 2 characters long"]
      else
        D.MinimalNameRequirements b.Name false) := by
  have h1 := ValidationApplicationItemKind_cons_invalid D b ys hb
  have h2 := ValidationApplicationItemKind_cons_invalid D b [] hb
  refine ⟨?_, h2.2, h2.1⟩
  rw [List.append_assoc, ValidationApplicationItemKind_append_valid D xs _ hxs,
    List.singleton_append, h1.1, h2.1]

/-- C6 (at a concrete input): after two valid Items, the Service Item named `-b` fails the
legality check and its reasons are returned, although an Item of unsupported Kind follows. -/
theorem itemKind_short_circuit_witness :
    (∀ a ∈ [(⟨"Pod", "ab"⟩ : Item), ⟨"Pod", "ab"⟩], itemValid specCollaborators a) ∧
    ¬ itemValid specCollaborators ⟨"Service", "-b"⟩ ∧
    ValidationApplicationItemKind specCollaborators
        ([⟨"Pod", "ab"⟩, ⟨"Pod", "ab"⟩] ++ [⟨"Service", "-b"⟩] ++ [⟨"Bogus", "x"⟩]) =
      specMinimalNameRequirements "-b" false :=
  ⟨by decide, by decide,
    ((itemKind_short_circuit specCollaborators [⟨"Pod", "ab"⟩, ⟨"Pod", "ab"⟩] [⟨"Bogus", "x"⟩]
      ⟨"Service", "-b"⟩ (by decide) (by decide)).1).trans (by decide)⟩

/-! ## The existence pass -/

/-- C2 (as stated, refuted): for the single Item `Pod/x` whose Pod lookup returns
not-found, the existence pass returns `(false, "resource Pod=x no found.")`, which is not
the pair `(false, "resource Pod=x not found.")`. -/
theorem itemName_message_not_as_stated :
    "Pod" ∈ handledKinds ∧
    lookupNotFound "ns" (constOClient GetResult.ok) podsMissingKClient ⟨"Pod", "x"⟩ ∧
    (ValidationApplicationItemName "ns" (constOClient GetResult.ok) podsMissingKClient
        [⟨"Pod", "x"⟩]).1 = (false, "resource Pod=x no found.") ∧
    (ValidationApplicationItemName "ns" (constOClient GetResult.ok) podsMissingKClient
        [⟨"Pod", "x"⟩]).1 ≠ (false, "resource Pod=x not found.") := by
  decide

/-- C2 (amended): for every namespace, every Kind `K` among the ten handled kinds and
every name `n`, if the lookup for the single Item with Kind `K` and Name `n` returns
not-found, the existence pass returns `(false, "resource K=n no found.")`. -/
theorem itemName_single_not_found (ns : String) (oClient : OClient) (kClient : KClient)
    (K n : String) (_hK : K ∈ handledKinds)
    (hnf : lookupNotFound ns oClient kClient ⟨K, n⟩) :
    (ValidationApplicationItemName ns oClient kClient [⟨K, n⟩]).1 =
      (false, "resource " ++ K ++ "=" ++ n ++ " no found.") := by
  rw [ValidationApplicationItemName_cons_notFound ns oClient kClient ⟨K, n⟩ [] hnf]
  rfl

/-- C2 (amended, at a concrete input): the Item `Pod/x` on a client whose Pod lookup returns
not-found. -/
theorem itemName_single_not_found_witness :
    "Pod" ∈ handledKinds ∧
    lookupNotFound "ns" (constOClient GetResult.ok) podsMissingKClient ⟨"Pod", "x"⟩ ∧
    (ValidationApplicationItemName "ns" (constOClient GetResult.ok) podsMissingKClient
        [⟨"Pod", "x"⟩]).1 = (false, "resource " ++ "Pod" ++ "=" ++ "x" ++ " no found.") :=
  ⟨by decide, by decide,
    itemName_single_not_found "ns" (constOClient GetResult.ok) podsMissingKClient "Pod" "x"
      (by decide) (by decide)⟩

/-- C7: the existence pass short-circuits. If no Item of `xs` has a lookup that returns
not-found and the lookup for `b` returns not-found, the pass on `xs ++ [b] ++ ys` returns
what it returns on `[b]`, a pair that names only `b`; the result and the calls issued
are those of the list cut after `b`, and the calls are exactly the ones selected for the
Items of `xs` and for `b`, so none is issued for an Item of `ys`. -/
theorem itemName_short_circuit (ns : String) (oClient : OClient) (kClient : KClient)
    (xs ys : ItemList) (b : Item)
    (hxs : ∀ a ∈ xs, ¬ lookupNotFound ns oClient kClient a)
    (hb : lookupNotFound ns oClient kClient b) :
    (ValidationApplicationItemName ns oClient kClient (xs ++ [b] ++ ys)).1 =
      (ValidationApplicationItemName ns oClient kClient [b]).1 ∧
    (ValidationApplicationItemName ns oClient kClient [b]).1 =
      (false, "resource " ++ b.Kind ++ "=" ++ b.Name ++ " no found.") ∧
    ValidationApplicationItemName ns oClient kClient (xs ++ [b] ++ ys) =
      ValidationApplicationItemName ns oClient kClient (xs ++ [b]) ∧
    (ValidationApplicationItemName ns oClient kClient (xs ++ [b] ++ ys)).2 =
      callsFor ns oClient kClient (xs ++ [b]) := by
  have e1 : ValidationApplicationItemName ns oClient kClient (xs ++ [b] ++ ys) =
      ((false, noFound b), callsFor ns oClient kClient (xs ++ [b])) := by
    rw [List.append_assoc, ValidationApplicationItemName_append_pass ns oClient kClient xs _ hxs,
      List.singleton_append, ValidationApplicationItemName_cons_notFound ns oClient kClient b ys hb,
      callsFor_append]
  have e2 : ValidationApplicationItemName ns oClient kClient (xs ++ [b]) =
      ((false, noFound b), callsFor ns oClient kClient (xs ++ [b])) := by
    rw [ValidationApplicationItemName_append_pass ns oClient kClient xs _ hxs,
      ValidationApplicationItemName_cons_notFound ns oClient kClient b [] hb, callsFor_append]
  have e3 := ValidationApplicationItemName_cons_notFound ns oClient kClient b [] hb
  refine ⟨?_, ?_, ?_, ?_⟩
  · rw [e1, e3]
  · rw [e3]; rfl
  · rw [e1, e2]
  · rw [e1]

/-- C7 (at a concrete input): a found Build, a Node whose lookup fails otherwise and an Item
of unhandled Kind precede the missing `Pod/x`; two more Items follow and get no lookup. -/
theorem itemName_short_circuit_witness :
    (∀ a ∈ [(⟨"Build", "b1"⟩ : Item), ⟨"Node", "n1"⟩, ⟨"Weird", "zz"⟩],
      ¬ lookupNotFound "ns" (constOClient GetResult.ok) podsMissingKClient a) ∧
    lookupNotFound "ns" (constOClient GetResult.ok) podsMissingKClient ⟨"Pod", "x"⟩ ∧
    ValidationApplicationItemName "ns" (constOClient GetResult.ok) podsMissingKClient
        ([⟨"Build", "b1"⟩, ⟨"Node", "n1"⟩, ⟨"Weird", "zz"⟩] ++ [⟨"Pod", "x"⟩] ++
          [⟨"Pod", "y"⟩, ⟨"Service", "s1"⟩]) =
      ((false, "resource Pod=x no found."),
        [⟨"Build", some "ns", "b1"⟩, ⟨"Node", none, "n1"⟩, ⟨"Pod", some "ns", "x"⟩]) :=
  ⟨by decide, by decide,
    ((itemName_short_circuit "ns" (constOClient GetResult.ok) podsMissingKClient
      [⟨"Build", "b1"⟩, ⟨"Node", "n1"⟩, ⟨"Weird", "zz"⟩] [⟨"Pod", "y"⟩, ⟨"Service", "s1"⟩]
      ⟨"Pod", "x"⟩ (by decide) (by decide)).2.2.1).trans (by decide)⟩

/-- C8: lookup errors other than not-found are treated as success. If each Item's lookup
either succeeds or fails with an error that is not a not-found error, the existence pass
returns `(true, "")`; and it returns false exactly when some Item's lookup returns
not-found. -/
theorem itemName_other_errors_pass (ns : String) (oClient : OClient) (kClient : KClient)
    (items : ItemList) :
    ((∀ a ∈ items, ∀ c r, lookupFor ns oClient kClient a = some (c, r) →
        r = GetResult.ok ∨ r = GetResult.otherError) →
      (ValidationApplicationItemName ns oClient kClient items).1 = (true, "")) ∧
    ((ValidationApplicationItemName ns oClient kClient items).1.1 = false ↔
      ∃ a ∈ items, ∃ c, lookupFor ns oClient kClient a = some (c, GetResult.notFound)) := by
  have hiff : ∀ a, lookupNotFound ns oClient kClient a ↔
      ∃ c, lookupFor ns oClient kClient a = some (c, GetResult.notFound) := by
    intro a
    unfold lookupNotFound
    rcases hl : lookupFor ns oClient kClient a with _ | ⟨c, r⟩ <;> simp
  constructor
  · intro h
    rw [ValidationApplicationItemName_all_pass ns oClient kClient items]
    intro a ha hnf
    obtain ⟨c, hc⟩ := (hiff a).mp hnf
    rcases h a ha c _ hc with h1 | h1 <;> cases h1
  · rw [ValidationApplicationItemName_false_iff]
    simp only [hiff]

/-! ## Create and update validation -/

/-- C9: the error list of `ValidateApplication` is the object-metadata errors, then one
Invalid error at path "items" whose detail is the kind/name reasons joined with ", "
exactly when that pass returned reasons, then one Invalid error at path "items" whose
detail is the existence-pass message exactly when that pass returned false. The
existence pass is run on the Application namespace and Items whatever the earlier checks
gave (its calls are the calls of the whole validation), and the list is empty iff all
three checks pass. -/
theorem ValidateApplication_error_list (D : Collaborators) (application : Application)
    (oClient : OClient) (kClient : KClient) :
    (ValidateApplication D application oClient kClient).1 =
      D.ValidateObjectMeta application.ObjectMeta true D.MinimalNameRequirements "metadata" ++
      (if ValidationApplicationItemKind D application.Spec.Items ≠ [] then
        [Invalid "items" (BadValue.items application.Spec.Items)
          (String.intercalate ", " (ValidationApplicationItemKind D application.Spec.Items))]
       else []) ++
      (if (ValidationApplicationItemName application.ObjectMeta.Namespace oClient kClient
            application.Spec.Items).1.1 = false then
        [Invalid "items" (BadValue.items application.Spec.Items)
          (ValidationApplicationItemName application.ObjectMeta.Namespace oClient kClient
            application.Spec.Items).1.2]
       else []) ∧
    (ValidateApplication D application oClient kClient).2 =
      (ValidationApplicationItemName application.ObjectMeta.Namespace oClient kClient
        application.Spec.Items).2 ∧
    ((ValidateApplication D application oClient kClient).1 = [] ↔
      D.ValidateObjectMeta application.ObjectMeta true D.MinimalNameRequirements "metadata" = [] ∧
      ValidationApplicationItemKind D application.Spec.Items = [] ∧
      (ValidationApplicationItemName application.ObjectMeta.Namespace oClient kClient
        application.Spec.Items).1.1 = true) := by
  refine ⟨?_, rfl, ?_⟩
  · simp only [ValidateApplication, Application.Namespace, NewPath, length_ne_zero_iff]
    split_ifs <;> simp_all
  · simp only [ValidateApplication, Application.Namespace, NewPath, length_ne_zero_iff]
    split_ifs <;> simp_all

/-- C10: update validation does not run the Item checks. For every old Application and
every two new Applications with the same object metadata, whatever their Items,
`ValidateApplicationUpdate` returns the same error list, and it issues no lookups. -/
theorem ValidateApplicationUpdate_ignores_items (D : Collaborators)
    (new1 new2 old : Application) (h : new1.ObjectMeta = new2.ObjectMeta) :
    (ValidateApplicationUpdate D new1 old).1 = (ValidateApplicationUpdate D new2 old).1 ∧
    (ValidateApplicationUpdate D new1 old).2 = [] ∧
    (ValidateApplicationUpdate D new2 old).2 = [] := by
  simp [ValidateApplicationUpdate, ValidateApplicationProxy, h]

/-- C10 (at a concrete input): two new Applications with equal metadata and different Items,
one of them with an unsupported Kind and a one-byte Name. -/
theorem ValidateApplicationUpdate_ignores_items_witness :
    (⟨metaOf "app" "ns", ⟨[⟨"Bogus", "x"⟩, ⟨"Pod", "missing"⟩]⟩⟩ : Application).ObjectMeta =
      (⟨metaOf "app" "ns", ⟨[⟨"Pod", "ab"⟩]⟩⟩ : Application).ObjectMeta ∧
    (⟨metaOf "app" "ns", ⟨[⟨"Bogus", "x"⟩, ⟨"Pod", "missing"⟩]⟩⟩ : Application).Spec.Items ≠
      (⟨metaOf "app" "ns", ⟨[⟨"Pod", "ab"⟩]⟩⟩ : Application).Spec.Items ∧
    (ValidateApplicationUpdate specCollaborators
        ⟨metaOf "app" "ns", ⟨[⟨"Bogus", "x"⟩, ⟨"Pod", "missing"⟩]⟩⟩
        ⟨metaOf "app" "other", ⟨[]⟩⟩).1 =
      (ValidateApplicationUpdate specCollaborators ⟨metaOf "app" "ns", ⟨[⟨"Pod", "ab"⟩]⟩⟩
        ⟨metaOf "app" "other", ⟨[]⟩⟩).1 :=
  ⟨by decide, by decide,
    (ValidateApplicationUpdate_ignores_items specCollaborators
      ⟨metaOf "app" "ns", ⟨[⟨"Bogus", "x"⟩, ⟨"Pod", "missing"⟩]⟩⟩
      ⟨metaOf "app" "ns", ⟨[⟨"Pod", "ab"⟩]⟩⟩ ⟨metaOf "app" "other", ⟨[]⟩⟩ (by decide)).1⟩

/-! ## Update validation, independence of Items, scoping and byte lengths -/

theorem lookupFor_cluster (ns ns2 : String) (oClient : OClient) (kClient : KClient)
    (item : Item) (h : item.Kind ∈ clusterKinds) :
    lookupFor ns oClient kClient item = lookupFor ns2 oClient kClient item ∧
    lookupFor ns oClient kClient item =
      some (⟨item.Kind, none, item.Name⟩,
        if item.Kind = "ServiceBroker" then oClient.ServiceBrokers item.Name
        else kClient.Nodes item.Name) := by
  simp only [clusterKinds, List.mem_cons, List.mem_singleton, List.not_mem_nil, or_false] at h
  rcases h with h | h <;> simp [lookupFor, h]

theorem lookupFor_namespaced (ns : String) (oClient : OClient) (kClient : KClient)
    (item : Item) (h : item.Kind ∈ namespacedKinds) :
    (lookupFor ns oClient kClient item).map Prod.fst =
      some ⟨item.Kind, some ns, item.Name⟩ := by
  simp only [namespacedKinds, List.mem_cons, List.mem_singleton, List.not_mem_nil,
    or_false] at h
  rcases h with h | h | h | h | h | h | h | h <;> simp [lookupFor, h]

theorem lookupFor_unhandled (ns : String) (oClient : OClient) (kClient : KClient)
    (item : Item) (h : item.Kind ∉ handledKinds) :
    lookupFor ns oClient kClient item = none := by
  simp only [handledKinds, List.mem_cons, List.mem_singleton, List.not_mem_nil, or_false,
    not_or] at h
  obtain ⟨h1, h2, h3, h4, h5, h6, h7, h8, h9, h10⟩ := h
  unfold lookupFor
  rw [if_neg h1, if_neg h2, if_neg h3, if_neg h4, if_neg h5, if_neg h6, if_neg h7, if_neg h8,
    if_neg h9, if_neg h10]

theorem ValidationApplicationItemName_cons_unhandled (ns : String) (oClient : OClient)
    (kClient : KClient) (item : Item) (rest : ItemList) (h : item.Kind ∉ handledKinds) :
    ValidationApplicationItemName ns oClient kClient (item :: rest) =
      ValidationApplicationItemName ns oClient kClient rest := by
  rw [ValidationApplicationItemName_cons, lookupFor_unhandled ns oClient kClient item h]

theorem ValidationApplicationItemName_filter_handled (ns : String) (oClient : OClient)
    (kClient : KClient) (items : ItemList) :
    ValidationApplicationItemName ns oClient kClient
        (items.filter (fun a => decide (a.Kind ∈ handledKinds))) =
      ValidationApplicationItemName ns oClient kClient items := by
  induction items with
  | nil => rfl
  | cons a rest ih =>
    by_cases ha : a.Kind ∈ handledKinds
    · rw [List.filter_cons_of_pos (by simpa using ha), ValidationApplicationItemName_cons,
        ValidationApplicationItemName_cons, ih]
    · rw [List.filter_cons_of_neg (by simpa using ha), ih,
        ValidationApplicationItemName_cons_unhandled ns oClient kClient a rest ha]

/-- C11: the list returned by `ValidateApplicationUpdate` is the metadata-update errors of
the new metadata against the old, followed by the metadata-legality errors of the new
Application; so whenever the metadata-update check reports an error the result is
non-empty, whatever the Items. With the spec's collaborators, changing the namespace
while keeping the Item list is rejected. -/
theorem ValidateApplicationUpdate_error_list (D : Collaborators)
    (newApplication oldApplication : Application) :
    (ValidateApplicationUpdate D newApplication oldApplication).1 =
      D.ValidateObjectMetaUpdate newApplication.ObjectMeta oldApplication.ObjectMeta "metadata" ++
      D.ValidateObjectMeta newApplication.ObjectMeta true D.MinimalNameRequirements "metadata" ∧
    (D.ValidateObjectMetaUpdate newApplication.ObjectMeta oldApplication.ObjectMeta "metadata"
        ≠ [] →
      (ValidateApplicationUpdate D newApplication oldApplication).1 ≠ []) ∧
    (ValidateApplicationUpdate specCollaborators ⟨metaOf "app" "other", ⟨[⟨"Pod", "ab"⟩]⟩⟩
      ⟨metaOf "app" "ns", ⟨[⟨"Pod", "ab"⟩]⟩⟩).1 ≠ [] := by
  refine ⟨rfl, ?_, by decide⟩
  intro h hnil
  have hnil2 : D.ValidateObjectMetaUpdate newApplication.ObjectMeta oldApplication.ObjectMeta
      (NewPath "metadata") ++ ValidateApplicationProxy D newApplication = [] := hnil
  exact h (List.append_eq_nil.mp hnil2).1

/-- C12: each Item is validated on its own. The kind/name pass returns no reasons if and
only if every Item of the list has a Kind in the allow-list, a Name of length at least 2
and a Name that passes the base legality check; it returns none for the empty list, and
repeating an Item does not change whether reasons are returned. -/
theorem itemKind_no_reasons_iff (D : Collaborators) (items : ItemList) :
    (ValidationApplicationItemKind D items = [] ↔
      ∀ a ∈ items, Contains D.ApplicationItemSupportKinds a.Kind = true ∧
        2 ≤ a.Name.utf8ByteSize ∧ D.MinimalNameRequirements a.Name false = []) ∧
    ValidationApplicationItemKind D [] = [] ∧
    (∀ a : Item, ValidationApplicationItemKind D (a :: a :: items) = [] ↔
      ValidationApplicationItemKind D (a :: items) = []) := by
  have key : ∀ l : ItemList, ValidationApplicationItemKind D l = [] ↔
      ∀ a ∈ l, itemValid D a := by
    intro l
    induction l with
    | nil => simp [ValidationApplicationItemKind]
    | cons a rest ih =>
      by_cases ha : itemValid D a
      · rw [ValidationApplicationItemKind_cons_valid D a rest ha, ih]
        simp [ha]
      · have h2 := (ValidationApplicationItemKind_cons_invalid D a rest ha).2
        simp [h2, ha]
  refine ⟨key items, rfl, ?_⟩
  intro a
  rw [key, key]
  simp

theorem ValidationApplicationItemName_single (ns : String) (oClient : OClient)
    (kClient : KClient) (item : Item) (c : Call) (r : GetResult)
    (h : lookupFor ns oClient kClient item = some (c, r)) :
    ValidationApplicationItemName ns oClient kClient [item] = singleOutcome item c r := by
  rw [ValidationApplicationItemName_cons, h]
  by_cases hr : r = GetResult.notFound
  · simp [hr, singleOutcome]
  · simp [hr, singleOutcome, logged, ValidationApplicationItemName]

theorem lookupFor_congr_clients (ns : String) (oClient o2 : OClient) (kClient k2 : KClient)
    (item : Item)
    (h1 : ∀ n, oClient.ServiceBrokers n = o2.ServiceBrokers n)
    (h2 : ∀ n, oClient.BackingServiceInstances ns n = o2.BackingServiceInstances ns n)
    (h3 : ∀ n, oClient.Builds ns n = o2.Builds ns n)
    (h4 : ∀ n, oClient.BuildConfigs ns n = o2.BuildConfigs ns n)
    (h5 : ∀ n, oClient.DeploymentConfigs ns n = o2.DeploymentConfigs ns n)
    (h6 : ∀ n, oClient.ImageStreams ns n = o2.ImageStreams ns n)
    (h7 : ∀ n, kClient.ReplicationControllers ns n = k2.ReplicationControllers ns n)
    (h8 : ∀ n, kClient.Nodes n = k2.Nodes n)
    (h9 : ∀ n, kClient.Pods ns n = k2.Pods ns n)
    (h10 : ∀ n, kClient.Services ns n = k2.Services ns n) :
    lookupFor ns oClient kClient item = lookupFor ns o2 k2 item := by
  unfold lookupFor
  rw [h1, h2, h3, h4, h5, h6, h7, h8, h9, h10]

/-- C17: in the existence pass an Item of a namespaced kind is looked up on the client
scoped to the namespace argument, and an Item of a cluster-scoped kind (ServiceBroker,
Node) on a client without namespace. For each of the ten kinds the pass on a one-item
list is decided by the answer of that kind's getter at the namespace argument (or, for
the two cluster-scoped kinds, without namespace) and the Name; the pass on any list
depends on the namespaced getters only through their answers at the namespace argument;
and for an item list of ServiceBroker and Node Items only, the returned pair and the
calls are the same for every namespace argument, while a Build that exists only in
namespace `prod` is found with `prod` and not with `dev`. -/
theorem itemName_namespace_scoping (ns : String) (oClient : OClient) (kClient : KClient)
    (items : ItemList) :
    (∀ item : Item, item.Kind ∈ namespacedKinds →
      (ValidationApplicationItemName ns oClient kClient [item]).2 =
        [⟨item.Kind, some ns, item.Name⟩]) ∧
    (∀ item : Item, item.Kind ∈ clusterKinds →
      (ValidationApplicationItemName ns oClient kClient [item]).2 =
        [⟨item.Kind, none, item.Name⟩]) ∧
    ((∀ a ∈ items, a.Kind = "ServiceBroker" ∨ a.Kind = "Node") →
      ∀ ns2 : String, ValidationApplicationItemName ns oClient kClient items =
        ValidationApplicationItemName ns2 oClient kClient items) ∧
    (ValidationApplicationItemName "prod" prodOnlyOClient (constKClient GetResult.ok)
        [⟨"Build", "b1"⟩]).1 = (true, "") ∧
    (ValidationApplicationItemName "dev" prodOnlyOClient (constKClient GetResult.ok)
        [⟨"Build", "b1"⟩]).1 = (false, "resource Build=b1 no found.") ∧
    (∀ item : Item,
      (item.Kind = "BackingServiceInstance" →
        ValidationApplicationItemName ns oClient kClient [item] =
          singleOutcome item ⟨"BackingServiceInstance", some ns, item.Name⟩
            (oClient.BackingServiceInstances ns item.Name)) ∧
      (item.Kind = "Build" →
        ValidationApplicationItemName ns oClient kClient [item] =
          singleOutcome item ⟨"Build", some ns, item.Name⟩ (oClient.Builds ns item.Name)) ∧
      (item.Kind = "BuildConfig" →
        ValidationApplicationItemName ns oClient kClient [item] =
          singleOutcome item ⟨"BuildConfig", some ns, item.Name⟩
            (oClient.BuildConfigs ns item.Name)) ∧
      (item.Kind = "DeploymentConfig" →
        ValidationApplicationItemName ns oClient kClient [item] =
          singleOutcome item ⟨"DeploymentConfig", some ns, item.Name⟩
            (oClient.DeploymentConfigs ns item.Name)) ∧
      (item.Kind = "ImageStream" →
        ValidationApplicationItemName ns oClient kClient [item] =
          singleOutcome item ⟨"ImageStream", some ns, item.Name⟩
            (oClient.ImageStreams ns item.Name)) ∧
      (item.Kind = "ReplicationController" →
        ValidationApplicationItemName ns oClient kClient [item] =
          singleOutcome item ⟨"ReplicationController", some ns, item.Name⟩
            (kClient.ReplicationControllers ns item.Name)) ∧
      (item.Kind = "Pod" →
        ValidationApplicationItemName ns oClient kClient [item] =
          singleOutcome item ⟨"Pod", some ns, item.Name⟩ (kClient.Pods ns item.Name)) ∧
      (item.Kind = "Service" →
        ValidationApplicationItemName ns oClient kClient [item] =
          singleOutcome item ⟨"Service", some ns, item.Name⟩
            (kClient.Services ns item.Name)) ∧
      (item.Kind = "ServiceBroker" →
        ValidationApplicationItemName ns oClient kClient [item] =
          singleOutcome item ⟨"ServiceBroker", none, item.Name⟩
            (oClient.ServiceBrokers item.Name)) ∧
      (item.Kind = "Node" →
        ValidationApplicationItemName ns oClient kClient [item] =
          singleOutcome item ⟨"Node", none, item.Name⟩ (kClient.Nodes item.Name))) ∧
    (∀ (o2 : OClient) (k2 : KClient),
      (∀ n, oClient.ServiceBrokers n = o2.ServiceBrokers n) →
      (∀ n, oClient.BackingServiceInstances ns n = o2.BackingServiceInstances ns n) →
      (∀ n, oClient.Builds ns n = o2.Builds ns n) →
      (∀ n, oClient.BuildConfigs ns n = o2.BuildConfigs ns n) →
      (∀ n, oClient.DeploymentConfigs ns n = o2.DeploymentConfigs ns n) →
      (∀ n, oClient.ImageStreams ns n = o2.ImageStreams ns n) →
      (∀ n, kClient.ReplicationControllers ns n = k2.ReplicationControllers ns n) →
      (∀ n, kClient.Nodes n = k2.Nodes n) →
      (∀ n, kClient.Pods ns n = k2.Pods ns n) →
      (∀ n, kClient.Services ns n = k2.Services ns n) →
      ValidationApplicationItemName ns oClient kClient items =
        ValidationApplicationItemName ns o2 k2 items) := by
  have single : ∀ (item : Item) (c : Call),
      (lookupFor ns oClient kClient item).map Prod.fst = some c →
      (ValidationApplicationItemName ns oClient kClient [item]).2 = [c] := by
    intro item c hc
    rw [ValidationApplicationItemName_cons]
    rcases hl : lookupFor ns oClient kClient item with _ | ⟨c2, r⟩
    · simp [hl] at hc
    · have hcc : c2 = c := by simpa [hl] using hc
      subst hcc
      by_cases hr : r = GetResult.notFound
      · simp [hr]
      · simp [hr, logged, ValidationApplicationItemName]
  refine ⟨?_, ?_, ?_, by decide, by decide, ?_, ?_⟩
  · intro item h
    exact single item _ (lookupFor_namespaced ns oClient kClient item h)
  · intro item h
    apply single
    rw [(lookupFor_cluster ns ns oClient kClient item h).2]
    rfl
  · intro h ns2
    induction items with
    | nil => rfl
    | cons a rest ih =>
      have ha : a.Kind ∈ clusterKinds := by
        rcases h a (by simp) with h1 | h1 <;> simp [clusterKinds, h1]
      rw [ValidationApplicationItemName_cons, ValidationApplicationItemName_cons,
        (lookupFor_cluster ns ns2 oClient kClient a ha).1,
        ih (fun b hb => h b (by simp [hb]))]
  · intro item
    refine ⟨?_, ?_, ?_, ?_, ?_, ?_, ?_, ?_, ?_, ?_⟩ <;>
    · intro h
      apply ValidationApplicationItemName_single
      simp [lookupFor, h]
  · intro o2 k2 h1 h2 h3 h4 h5 h6 h7 h8 h9 h10
    induction items with
    | nil => rfl
    | cons a rest ih =>
      rw [ValidationApplicationItemName_cons, ValidationApplicationItemName_cons,
        lookupFor_congr_clients ns oClient o2 kClient k2 a h1 h2 h3 h4 h5 h6 h7 h8 h9 h10, ih]

/-- C18: the existence pass silently accepts unknown kinds. For an item list all of whose
Kinds are outside the ten kinds of the switch it returns `(true, "")` and issues no
lookup; and Items of unhandled Kind never affect the result: dropping all of them, or
any one of them, leaves the returned pair and the calls unchanged. -/
theorem itemName_unhandled_kinds (ns : String) (oClient : OClient) (kClient : KClient)
    (items : ItemList) :
    ((∀ a ∈ items, a.Kind ∉ handledKinds) →
      ValidationApplicationItemName ns oClient kClient items = ((true, ""), [])) ∧
    ValidationApplicationItemName ns oClient kClient
        (items.filter (fun a => decide (a.Kind ∈ handledKinds))) =
      ValidationApplicationItemName ns oClient kClient items ∧
    (∀ (xs ys : ItemList) (a : Item), a.Kind ∉ handledKinds →
      ValidationApplicationItemName ns oClient kClient (xs ++ [a] ++ ys) =
        ValidationApplicationItemName ns oClient kClient (xs ++ ys)) := by
  refine ⟨?_, ValidationApplicationItemName_filter_handled ns oClient kClient items, ?_⟩
  · intro h
    rw [← ValidationApplicationItemName_filter_handled ns oClient kClient items]
    have hnil : items.filter (fun a => decide (a.Kind ∈ handledKinds)) = [] := by
      rw [List.filter_eq_nil_iff]
      intro a ha
      simpa using h a ha
    rw [hnil]
    rfl
  · intro xs ys a ha
    rw [← ValidationApplicationItemName_filter_handled ns oClient kClient (xs ++ [a] ++ ys),
      ← ValidationApplicationItemName_filter_handled ns oClient kClient (xs ++ ys)]
    have hf : [a].filter (fun a => decide (a.Kind ∈ handledKinds)) = [] := by
      rw [List.filter_eq_nil_iff]
      intro b hb
      have hb2 : b = a := by simpa using hb
      simpa [hb2] using ha
    rw [List.filter_append, List.filter_append, hf, List.append_nil, List.filter_append]

theorem ValidateApplicationName_characterised_aux (D : Collaborators) (name : String)
    (pfx : Bool) (h : D.MinimalNameRequirements name pfx = []) :
    (name.utf8ByteSize < 32 →
      ValidateApplicationName D name pfx = ["must be at least 32 characters long"]) ∧
    (32 ≤ name.utf8ByteSize → ValidateApplicationName D name pfx = []) := by
  have hmsg : "must be at least " ++ toString MinApplicationLength ++ " characters long" =
      "must be at least 32 characters long" := by decide
  constructor
  · intro hlt
    simp [ValidateApplicationName, h, MinApplicationLength, hlt]
    exact hmsg
  · intro hge
    simp [ValidateApplicationName, h, MinApplicationLength, Nat.not_lt.mpr hge]

/-- C19: the length rules count UTF-8 bytes, not characters. For an Item of supported
Kind the kind/name pass gives the 2-character reason when the Name has fewer than 2
bytes and otherwise gives what the base check says, so (when the base check does not
itself produce that text) it returns the 2-character reason iff the byte length is less
than 2; `ValidateApplicationName` on a name that passes the base check returns the
32-character reason iff the byte length is less than 32. The name `é` is one character
of two bytes: with a supported Kind and a base check that accepts it, no reason is
returned. -/
theorem length_rules_count_bytes (D : Collaborators) (item : Item) (name : String)
    (pfx : Bool) :
    (Contains D.ApplicationItemSupportKinds item.Kind = true →
      (item.Name.utf8ByteSize < 2 →
        ValidationApplicationItemKind D [item] =
          ["item name must be at least 2 characters long"]) ∧
      (2 ≤ item.Name.utf8ByteSize →
        ValidationApplicationItemKind D [item] = D.MinimalNameRequirements item.Name false) ∧
      (D.MinimalNameRequirements item.Name false ≠
          ["item name must be at least 2 characters long"] →
        (ValidationApplicationItemKind D [item] =
            ["item name must be at least 2 characters long"] ↔
          item.Name.utf8ByteSize < 2))) ∧
    (D.MinimalNameRequirements name pfx = [] →
      (ValidateApplicationName D name pfx = ["must be at least 32 characters long"] ↔
        name.utf8ByteSize < 32)) ∧
    ("é".length = 1 ∧ "é".utf8ByteSize = 2) ∧
    (Contains D.ApplicationItemSupportKinds item.Kind = true → item.Name = "é" →
      D.MinimalNameRequirements "é" false = [] →
      ValidationApplicationItemKind D [item] = []) ∧
    ValidationApplicationItemKind lenientCollaborators [⟨"Pod", "é"⟩] = [] := by
  have hshort : Contains D.ApplicationItemSupportKinds item.Kind = true →
      item.Name.utf8ByteSize < 2 →
      ValidationApplicationItemKind D [item] =
        ["item name must be at least 2 characters long"] := by
    intro hk hlt
    rw [ValidationApplicationItemKind_cons]
    simp [hk, hlt]
  have hlong : Contains D.ApplicationItemSupportKinds item.Kind = true →
      2 ≤ item.Name.utf8ByteSize →
      ValidationApplicationItemKind D [item] = D.MinimalNameRequirements item.Name false := by
    intro hk hge
    rw [ValidationApplicationItemKind_cons]
    by_cases hm : D.MinimalNameRequirements item.Name false = []
    · simp [hk, Nat.not_lt.mpr hge, hm, ValidationApplicationItemKind]
    · simp [hk, Nat.not_lt.mpr hge, hm]
  have h32 := ValidateApplicationName_characterised_aux D name pfx
  refine ⟨?_, ?_, by decide, ?_, by decide⟩
  · intro hk
    refine ⟨hshort hk, hlong hk, ?_⟩
    intro hne
    constructor
    · intro heq
      by_contra hge
      exact hne ((hlong hk (Nat.not_lt.mp hge)).symm.trans heq)
    · exact hshort hk
  · intro hm
    constructor
    · intro heq
      by_contra hge
      rw [(h32 hm).2 (Nat.not_lt.mp hge)] at heq
      exact absurd heq (by simp)
    · exact (h32 hm).1
  · intro hk hn hm
    have hge : 2 ≤ item.Name.utf8ByteSize := by rw [hn]; decide
    rw [hlong hk hge, hn, hm]

/-! ## Selectable fields and the backing-service store -/

theorem specMinimalNameRequirements_no_slash (name : String) (pfx : Bool)
    (h : specMinimalNameRequirements name pfx = []) : '/' ∉ name.toList := by
  simp only [specMinimalNameRequirements] at h
  intro hmem
  split_ifs at h with hc
  · simp only [Bool.and_eq_true, List.all_eq_true] at hc
    have := hc.1.1 '/' hmem
    revert this
    decide

theorem takeWhile_dropWhile_sep (l r : List Char) (h : '/' ∉ l) :
    (l ++ '/' :: r).takeWhile (fun c => c != '/') = l ∧
    (l ++ '/' :: r).dropWhile (fun c => c != '/') = '/' :: r := by
  induction l with
  | nil => simp [List.takeWhile, List.dropWhile]
  | cons a l ih =>
    have ha : a ≠ '/' := fun e => h (by simp [e])
    have hl : '/' ∉ l := fun e => h (by simp [e])
    have hb : (a != '/') = true := by simpa using ha
    rw [List.cons_append, List.takeWhile_cons, List.dropWhile_cons, hb]
    simp only [if_true, (ih hl).1, (ih hl).2]
    exact ⟨trivial, trivial⟩

theorem parseKey_key (ns name : String) (h : '/' ∉ name.toList) :
    parseKey ("/backingservices" ++ "/" ++ ns ++ "/" ++ name) = some (ns, name) := by
  have hl : ("/backingservices" ++ "/" ++ ns ++ "/" ++ name).toList =
      "/backingservices/".toList ++ (ns.toList ++ '/' :: name.toList) := by
    simp [String.toList, String.data_append]
  have hrev : '/' ∉ name.toList.reverse := by simpa using h
  have hsep := takeWhile_dropWhile_sep name.toList.reverse ns.toList.reverse hrev
  unfold parseKey
  simp only [hl]
  rw [if_pos (by simp)]
  simp only [List.drop_left, List.reverse_append, List.reverse_cons, List.append_assoc,
    List.singleton_append, hsep.1, hsep.2, List.reverse_reverse]
  rfl

theorem NewREST_ok_store (ApplyOptions : Store → String → Option String) (rest : REST)
    (h : NewREST ApplyOptions = Except.ok rest) :
    rest = ⟨NewREST_store "/backingservices"⟩ := by
  unfold NewREST at h
  simp only at h
  split at h
  · cases h
  · injection h with h2
    exact h2.symm

theorem NewREST_store_KeyFunc (ctx : Context) (name : String) :
    (NewREST_store "/backingservices").KeyFunc ctx name =
      if specMinimalNameRequirements name false = [] then
        Result.ok ("/backingservices" ++ "/" ++ ctx.Namespace ++ "/" ++ name)
      else Result.error StoreError.InvalidName := by
  simp only [NewREST_store, NamespaceKeyFunc, NamespaceKeyRootFunc, length_ne_zero_iff]
  split_ifs <;> simp_all

theorem NewREST_store_key_parse (ctx : Context) (name key : String)
    (hk : (NewREST_store "/backingservices").KeyFunc ctx name = Result.ok key) :
    parseKey key = some (ctx.Namespace, name) := by
  rw [NewREST_store_KeyFunc] at hk
  split_ifs at hk with hl
  injection hk with hk2
  rw [← hk2]
  exact parseKey_key ctx.Namespace name (specMinimalNameRequirements_no_slash name false hl)

/-- C13: `BackingServiceInstanceToSelectableFields` is a total function whose result has
exactly the three distinct keys `metadata.name`, `metadata.namespace` and
`spec.provisioning.backingservice_name`, mapped to the instance's Name, its Namespace
and its `Spec.BackingServiceName`; any other key is absent. -/
theorem BackingServiceInstanceToSelectableFields_entries
    (backingServiceInstance : BackingServiceInstance) :
    (BackingServiceInstanceToSelectableFields backingServiceInstance).map Prod.fst =
      ["metadata.name", "metadata.namespace", "spec.provisioning.backingservice_name"] ∧
    ((BackingServiceInstanceToSelectableFields backingServiceInstance).map Prod.fst).Nodup ∧
    (BackingServiceInstanceToSelectableFields backingServiceInstance).lookup "metadata.name" =
      some backingServiceInstance.ObjectMeta.Name ∧
    (BackingServiceInstanceToSelectableFields backingServiceInstance).lookup
      "metadata.namespace" = some backingServiceInstance.ObjectMeta.Namespace ∧
    (BackingServiceInstanceToSelectableFields backingServiceInstance).lookup
      "spec.provisioning.backingservice_name" =
      some backingServiceInstance.Spec.BackingServiceName ∧
    (∀ k : String,
      k ∉ ["metadata.name", "metadata.namespace", "spec.provisioning.backingservice_name"] →
      (BackingServiceInstanceToSelectableFields backingServiceInstance).lookup k = none) := by
  have hkeys : (BackingServiceInstanceToSelectableFields backingServiceInstance).map
      Prod.fst =
      ["metadata.name", "metadata.namespace", "spec.provisioning.backingservice_name"] := rfl
  refine ⟨hkeys, by rw [hkeys]; decide, rfl, rfl, rfl, ?_⟩
  intro k hk
  simp only [List.mem_cons, List.mem_singleton, List.not_mem_nil, or_false, not_or] at hk
  obtain ⟨h1, h2, h3⟩ := hk
  have e1 : (k == "metadata.name") = false := by simpa using h1
  have e2 : (k == "metadata.namespace") = false := by simpa using h2
  have e3 : (k == "spec.provisioning.backingservice_name") = false := by simpa using h3
  simp only [BackingServiceInstanceToSelectableFields, List.lookup, e1, e2, e3]

/-- C14 (as stated, refuted): the store that `NewREST` returns carries the setting
`ReturnDeletedObject: false`, not `true`: it is not configured to return the deleted
object. -/
theorem NewREST_ReturnDeletedObject_not_on :
    NewREST okOptions = Except.ok ⟨NewREST_store "/backingservices"⟩ ∧
    (NewREST_store "/backingservices").ReturnDeletedObject = false ∧
    (NewREST_store "/backingservices").ReturnDeletedObject ≠ true := by
  refine ⟨rfl, rfl, ?_⟩
  decide

/-- C14 (amended): every store that `NewREST` returns for backing services is configured
with `ReturnDeletedObject` set to false, whatever the options getter. -/
theorem NewREST_ReturnDeletedObject_off (ApplyOptions : Store → String → Option String)
    (rest : REST) (h : NewREST ApplyOptions = Except.ok rest) :
    rest.store.ReturnDeletedObject = false := by
  have hr := NewREST_ok_store ApplyOptions rest h
  subst hr
  rfl

/-- C14 (amended, at a concrete input): the store built with an options getter that
succeeds. -/
theorem NewREST_ReturnDeletedObject_off_witness :
    NewREST okOptions = Except.ok ⟨NewREST_store "/backingservices"⟩ ∧
    (NewREST_store "/backingservices").ReturnDeletedObject = false :=
  ⟨rfl, NewREST_ReturnDeletedObject_off okOptions ⟨NewREST_store "/backingservices"⟩ rfl⟩

/-- C15: for the store built by `NewREST`, for every non-empty namespace `ns`,
`KeyRootFunc` returns `"/backingservices/" ++ ns`; for every legal name `n`, `KeyFunc`
returns `"/backingservices/" ++ ns ++ "/" ++ n`, which is the root key followed by `/`
and the name; and `KeyFunc` fails with `InvalidName` when the name fails the legality
check. -/
theorem NewREST_keys (ApplyOptions : Store → String → Option String) (rest : REST)
    (h : NewREST ApplyOptions = Except.ok rest) (ns n : String) (_hns : ns ≠ "") :
    rest.store.KeyRootFunc ⟨ns⟩ = "/backingservices/" ++ ns ∧
    (specMinimalNameRequirements n false = [] →
      rest.store.KeyFunc ⟨ns⟩ n = Result.ok ("/backingservices/" ++ ns ++ "/" ++ n) ∧
      rest.store.KeyFunc ⟨ns⟩ n = Result.ok (rest.store.KeyRootFunc ⟨ns⟩ ++ "/" ++ n)) ∧
    (specMinimalNameRequirements n false ≠ [] →
      rest.store.KeyFunc ⟨ns⟩ n = Result.error StoreError.InvalidName) := by
  have hr := NewREST_ok_store ApplyOptions rest h
  subst hr
  have hp : "/backingservices" ++ "/" = "/backingservices/" := by decide
  have hroot : (NewREST_store "/backingservices").KeyRootFunc ⟨ns⟩ =
      "/backingservices/" ++ ns := by
    show "/backingservices" ++ "/" ++ ns = "/backingservices/" ++ ns
    rw [hp]
  refine ⟨hroot, ?_, ?_⟩
  · intro hl
    have hkey : (NewREST_store "/backingservices").KeyFunc ⟨ns⟩ n =
        Result.ok ("/backingservices/" ++ ns ++ "/" ++ n) := by
      rw [NewREST_store_KeyFunc, if_pos hl, hp]
    refine ⟨hkey, ?_⟩
    show (NewREST_store "/backingservices").KeyFunc ⟨ns⟩ n =
      Result.ok ((NewREST_store "/backingservices").KeyRootFunc ⟨ns⟩ ++ "/" ++ n)
    rw [hroot, hkey]
  · intro hl
    show (NewREST_store "/backingservices").KeyFunc ⟨ns⟩ n = Result.error StoreError.InvalidName
    rw [NewREST_store_KeyFunc, if_neg hl]

/-- C15 (at a concrete input): namespace `ns`, the legal name `mysql` and the illegal
name `My_SQL`. -/
theorem NewREST_keys_witness :
    NewREST okOptions = Except.ok ⟨NewREST_store "/backingservices"⟩ ∧
    ("ns" : String) ≠ "" ∧
    (NewREST_store "/backingservices").KeyRootFunc ⟨"ns"⟩ = "/backingservices/ns" ∧
    (NewREST_store "/backingservices").KeyFunc ⟨"ns"⟩ "mysql" =
      Result.ok "/backingservices/ns/mysql" ∧
    (NewREST_store "/backingservices").KeyFunc ⟨"ns"⟩ "My_SQL" =
      Result.error StoreError.InvalidName :=
  ⟨rfl, by decide,
    (NewREST_keys okOptions ⟨NewREST_store "/backingservices"⟩ rfl "ns" "mysql"
      (by decide)).1.trans (by decide),
    ((NewREST_keys okOptions ⟨NewREST_store "/backingservices"⟩ rfl "ns" "mysql"
      (by decide)).2.1 (by decide)).1.trans (by decide),
    (NewREST_keys okOptions ⟨NewREST_store "/backingservices"⟩ rfl "ns" "My_SQL"
      (by decide)).2.2 (by decide)⟩

/-- C16: key round trip. For the store built by `NewREST`, whenever `KeyFunc` succeeds on
a namespace and a name, parsing the key back (stripping the prefix and splitting at the
last `/`) yields that namespace and name; so if `KeyFunc` gives the same key for two
pairs, the pairs are equal. -/
theorem NewREST_key_round_trip (ApplyOptions : Store → String → Option String) (rest : REST)
    (h : NewREST ApplyOptions = Except.ok rest) (ctx : Context) (name key : String)
    (hk : rest.store.KeyFunc ctx name = Result.ok key) :
    parseKey key = some (ctx.Namespace, name) ∧
    (∀ (ctx2 : Context) (name2 : String), rest.store.KeyFunc ctx2 name2 = Result.ok key →
      ctx2.Namespace = ctx.Namespace ∧ name2 = name) := by
  have hr := NewREST_ok_store ApplyOptions rest h
  subst hr
  have h1 := NewREST_store_key_parse ctx name key hk
  refine ⟨h1, ?_⟩
  intro ctx2 name2 hk2
  have h2 := NewREST_store_key_parse ctx2 name2 key hk2
  rw [h1] at h2
  injection h2 with h3
  injection h3 with h4 h5
  exact ⟨h4.symm, h5.symm⟩

/-- C16 (at a concrete input): the key of `mysql` in the namespace `team/a`, which itself
contains a `/`, is read back as that pair. -/
theorem NewREST_key_round_trip_witness :
    NewREST okOptions = Except.ok ⟨NewREST_store "/backingservices"⟩ ∧
    (NewREST_store "/backingservices").KeyFunc ⟨"team/a"⟩ "mysql" =
      Result.ok "/backingservices/team/a/mysql" ∧
    parseKey "/backingservices/team/a/mysql" = some ("team/a", "mysql") :=
  ⟨rfl, by decide,
    (NewREST_key_round_trip okOptions ⟨NewREST_store "/backingservices"⟩ rfl ⟨"team/a"⟩
      "mysql" "/backingservices/team/a/mysql" (by decide)).1⟩

end Datafactory
